import Mathlib

/-!
A shallow embedding of the porkbun-ddns reconciler (src/main.rs, src/config.rs,
src/api/model.rs) together with proofs about the claims of its specification.

Rust strings are modelled at the byte level as `List Nat` (UTF-8 bytes), so that
`str::len`, `starts_with`, `ends_with` and byte-range slicing keep their source
semantics.  IPv4/IPv6 addresses are abstract values compared only for equality.
Network effects (the Porkbun client) are modelled by an explicit environment of
responses; provider mutation calls are collected into an explicit output list.
-/

namespace DDNS

/-- Bytes of the string "A". -/
def strA : List Nat := [65]

/-- Bytes of the string "AAAA". -/
def strAAAA : List Nat := [65, 65, 65, 65]

/-- Bytes of the string "CNAME". -/
def strCNAME : List Nat := [67, 78, 65, 77, 69]

/-- Bytes of the string "ALIAS". -/
def strALIAS : List Nat := [65, 76, 73, 65, 83]

/-- Bytes of the string ".". -/
def strDot : List Nat := [46]

/-- Bytes of the string "@". -/
def strAt : List Nat := [64]

/-- Bytes of the placeholder record ID `"<ID>"` used by `handle_target` in dry-run mode. -/
def strPlaceholder : List Nat := [60, 73, 68, 62]

/-- Model of `str::starts_with` on UTF-8 bytes (second argument is the prefix pattern). -/
def startsWith : List Nat → List Nat → Bool
  | _, [] => true
  | [], _ :: _ => false
  | a :: l, b :: p => a == b && startsWith l p

/-- Model of `str::ends_with` on UTF-8 bytes (second argument is the suffix pattern). -/
def endsWith (l p : List Nat) : Bool :=
  startsWith l.reverse p.reverse

/-- Content of the byte-range slice `&s[a..b]` of a Rust string (panic-freedom of the
slice is treated separately; see `isCharBoundary` and `matches_record_checked`). -/
def slice (l : List Nat) (a b : Nat) : List Nat :=
  (l.take b).drop a

/-- Model of `std::net::Ipv4Addr`: an abstract value compared only for equality. -/
abbrev Ipv4Addr := Nat

/-- Model of `std::net::Ipv6Addr`: an abstract value compared only for equality. -/
abbrev Ipv6Addr := Nat

/-- Model of `std::net::IpAddr`. -/
inductive IpAddr where
  | v4 (addr : Ipv4Addr)
  | v6 (addr : Ipv6Addr)
deriving DecidableEq

/-- Model of `IpAddrExt::dns_type` (the `RECORD_TYPE` constants of `src/api/mod.rs`):
"A" for IPv4 addresses and "AAAA" for IPv6 addresses. -/
def IpAddr.dns_type : IpAddr → List Nat
  | .v4 _ => strA
  | .v6 _ => strAAAA

/-- Model of `config::Target` (src/config.rs): strings are UTF-8 byte lists. -/
structure Target where
  domain : List Nat
  subdomain : Option (List Nat)
  ttl : Nat
deriving DecidableEq

/-- Model of `api::model::DNSRecord` (src/api/model.rs). -/
structure DNSRecord where
  id : List Nat
  name : List Nat
  typ : List Nat
  content : List Nat
  ttl : Option Nat
  prio : Option Nat
  notes : Option (List Nat)
deriving DecidableEq

/-- Model of `Target::matches_record` (src/config.rs lines 193-205):
a subdomain of `@` or an absent subdomain compares the record name against the bare
domain; otherwise prefix match on the subdomain, suffix match on the domain, an exact
total-length check, and the byte slice `[sub.len() .. sub.len()+1]` compared to ".". -/
def Target.matches_record (t : Target) (r : DNSRecord) : Bool :=
  match t.subdomain with
  | some s =>
    if s = strAt then r.name == t.domain
    else
      startsWith r.name s && endsWith r.name t.domain
        && (r.name.length == t.domain.length + s.length + 1)
        && (slice r.name s.length (s.length + 1) == strDot)
  | none => r.name == t.domain

/-- Modelled from the spec: the matching rule stated with the naive concatenation
`subdomain + "." + domain` instead of the allocation-free check of the code. -/
def matchesRecordSpec (t : Target) (r : DNSRecord) : Bool :=
  match t.subdomain with
  | some s =>
    if s = strAt then r.name == t.domain
    else r.name == s ++ strDot ++ t.domain
  | none => r.name == t.domain

/-- Decides whether a byte is a UTF-8 continuation byte (`0x80 ..= 0xBF`). -/
def isCont (b : Nat) : Bool :=
  128 ≤ b && b < 192

/-- Structural validity of a UTF-8 byte sequence: every Rust `String`/`str` satisfies
this (leading-byte ranges determine how many continuation bytes follow; the further
restrictions Rust imposes, such as excluding overlong forms and surrogates, only
shrink the set and are not needed for the boundary analysis). -/
def utf8Valid : List Nat → Bool
  | [] => true
  | b1 :: rest =>
    if b1 < 128 then utf8Valid rest
    else if b1 < 192 then false
    else if b1 < 224 then
      match rest with
      | b2 :: rest2 => isCont b2 && utf8Valid rest2
      | [] => false
    else if b1 < 240 then
      match rest with
      | b2 :: b3 :: rest3 => isCont b2 && isCont b3 && utf8Valid rest3
      | _ => false
    else if b1 < 248 then
      match rest with
      | b2 :: b3 :: b4 :: rest4 => isCont b2 && isCont b3 && isCont b4 && utf8Valid rest4
      | _ => false
    else false

/-- Model of `str::is_char_boundary`: index 0 is always a boundary; an index equal to
the length is a boundary; any other index is a boundary iff the byte there is not a
continuation byte. -/
def isCharBoundary (l : List Nat) (i : Nat) : Bool :=
  i == 0 ||
    match l[i]? with
    | none => i == l.length
    | some b => !isCont b

/-- Instrumented version of `Target::matches_record` that makes the panic behaviour of
the byte-range index `&record.name[sub.len()..sub.len() + 1]` explicit: it returns
`none` exactly when Rust would panic there (an index out of bounds or not on a
character boundary), and `some` of the boolean result otherwise. -/
def matches_record_checked (t : Target) (r : DNSRecord) : Option Bool :=
  match t.subdomain with
  | some s =>
    if s = strAt then some (r.name == t.domain)
    else if startsWith r.name s && endsWith r.name t.domain
        && (r.name.length == t.domain.length + s.length + 1) then
      if isCharBoundary r.name s.length && isCharBoundary r.name (s.length + 1)
          && s.length + 1 ≤ r.name.length then
        some (slice r.name s.length (s.length + 1) == strDot)
      else none
    else some false
  | none => some (r.name == t.domain)

/-- Model of `config::AddrMode` (src/config.rs). -/
inductive AddrMode where
  | Enabled
  | Disabled
  | Try
deriving DecidableEq

/-- Model of `AddrMode::is_enabled` (src/config.rs): `Enabled` and `Try` count as
enabled. -/
def AddrMode.is_enabled : AddrMode → Bool
  | .Enabled | .Try => true
  | .Disabled => false

/-- Model of `AddrMode::is_required` (src/config.rs): only `Enabled` is required. -/
def AddrMode.is_required : AddrMode → Bool
  | .Enabled => true
  | _ => false

/-- Distinguishes the failure exits of `App::get_addresses` (src/main.rs):
propagation of a failed `/ping`, the "only got IPv4" error, and the "only got IPv6"
error wrapping a failed IPv4-only ping. -/
inductive AddrError where
  | pingFailed
  | onlyGotV4
  | onlyGotV6
deriving DecidableEq

/-- Model of `App::get_addresses` (src/main.rs lines 131-192).  The two network
probes are passed in as their results: `ping` is the outcome of the base `/ping`
call, `ping_v4` the outcome of the IPv4-only `/ping` call (consulted only where the
source consults it). -/
def get_addresses (ipv4mode ipv6mode : AddrMode) (ping : Except Unit IpAddr)
    (ping_v4 : Except Unit Ipv4Addr) : Except AddrError (Option Ipv4Addr × Option Ipv6Addr) :=
  if ipv4mode.is_enabled = false ∧ ipv6mode.is_enabled = false then
    .ok (none, none)
  else
    match ping with
    | .error _ => .error .pingFailed
    | .ok (.v4 addr) =>
      let ipv4 : Option Ipv4Addr := if ipv4mode.is_enabled then some addr else none
      if ipv6mode.is_enabled && (ipv6mode.is_required || !ipv4mode.is_enabled) then
        .error .onlyGotV4
      else
        .ok (ipv4, none)
    | .ok (.v6 addr) =>
      let ipv6 : Option Ipv6Addr := if ipv6mode.is_enabled then some addr else none
      if ipv4mode.is_enabled then
        match ping_v4 with
        | .ok addr4 => .ok (some addr4, ipv6)
        | .error _ =>
          if ipv4mode.is_required || !ipv6mode.is_enabled then .error .onlyGotV6
          else .ok (none, ipv6)
      else
        .ok (none, ipv6)

/-- The distinct failure exits of `App::handle_target` (src/main.rs lines 285-357). -/
inductive HandleErr where
  | multipleExisting
  | cnameCollision
  | malformedRecord
  | editFailed
  | createFailed
deriving DecidableEq

/-- The per-task outcome reported by `App::handle_target` via its log lines:
nothing to do, an edit (reporting the edited record's ID), or a creation (reporting
the new record's ID — the placeholder `"<ID>"` in dry-run mode). -/
inductive Outcome where
  | noChange
  | edited (id : List Nat)
  | created (id : List Nat)
deriving DecidableEq

/-- A provider mutation call issued through `PorkbunClient` (src/api/client.rs). -/
inductive ProviderCall where
  | edit (t : Target) (recordId : List Nat) (addr : IpAddr)
  | create (t : Target) (addr : IpAddr)
deriving DecidableEq

/-- The environment of outside responses a run observes: results of the two ping
endpoints, of each per-domain record fetch, of `str::parse::<IpAddr>` on record
contents, and of each edit/create call. -/
structure Env where
  ping : Except Unit IpAddr
  ping_v4 : Except Unit Ipv4Addr
  fetch : List Nat → Except Unit (List DNSRecord)
  parseIp : List Nat → Except Unit IpAddr
  editResult : Target → List Nat → IpAddr → Except Unit Unit
  createResult : Target → IpAddr → Except Unit (List Nat)

/-- Model of `DNSRecord::try_parse_ip` (src/api/model.rs lines 62-75): rejects
records that are not A/AAAA, parses the content (the parser of the standard library
is part of the environment), and rejects a parsed address whose family does not
match the record type. -/
def DNSRecord.try_parse_ip (parseIp : List Nat → Except Unit IpAddr) (r : DNSRecord) :
    Except Unit IpAddr :=
  if !(r.typ == strA || r.typ == strAAAA) then .error ()
  else
    match parseIp r.content with
    | .error _ => .error ()
    | .ok addr => if addr.dns_type ≠ r.typ then .error () else .ok addr

/-- The record-scanning loop of `App::handle_target` (src/main.rs lines 289-314):
walks the domain's records accumulating the unique record that matches the target
with the desired DNS type (`existing`), returning early on a second such record or
on a matching CNAME/ALIAS record. -/
def scanRecords (t : Target) (dnsType : List Nat) :
    List DNSRecord → Option DNSRecord → Except HandleErr (Option DNSRecord)
  | [], existing => .ok existing
  | r :: rs, existing =>
    if !(t.matches_record r) then scanRecords t dnsType rs existing
    else if r.typ == dnsType then
      match existing with
      | none => scanRecords t dnsType rs (some r)
      | some _ => .error .multipleExisting
    else if r.typ == strCNAME || r.typ == strALIAS then .error .cnameCollision
    else scanRecords t dnsType rs existing

/-- Model of `App::handle_target` (src/main.rs lines 285-357).  Returns the task's
result (outcome or error) together with the list of provider mutation calls it
issued. -/
def handle_target (dryRun : Bool) (env : Env) (t : Target) (records : List DNSRecord)
    (addr : IpAddr) : Except HandleErr Outcome × List ProviderCall :=
  let dnsType := addr.dns_type
  match scanRecords t dnsType records none with
  | .error e => (.error e, [])
  | .ok (some record) =>
    match record.try_parse_ip env.parseIp with
    | .error _ => (.error .malformedRecord, [])
    | .ok existing_addr =>
      if existing_addr = addr then
        (.ok .noChange, [])
      else if !dryRun then
        match env.editResult t record.id addr with
        | .ok _ => (.ok (.edited record.id), [.edit t record.id addr])
        | .error _ => (.error .editFailed, [.edit t record.id addr])
      else
        (.ok (.edited record.id), [])
  | .ok none =>
    if !dryRun then
      match env.createResult t addr with
      | .ok newId => (.ok (.created newId), [.create t addr])
      | .error _ => (.error .createFailed, [.create t addr])
    else
      (.ok (.created strPlaceholder), [])

/-- Number of records held by the `existing` accumulator of the scanning loop. -/
def accCount : Option DNSRecord → Nat
  | some _ => 1
  | none => 0

/-- Decides whether an `Except` value is an error. -/
def isErr {ε α : Type} : Except ε α → Bool
  | .error _ => true
  | .ok _ => false

/-- The per-domain record store built by step 1 of `App::run` (src/main.rs lines
208-244): every domain referenced by a target has an entry, seeded with an empty
vector; a successful fetch overwrites the entry, a failed fetch leaves it empty. -/
def recordStore (env : Env) (domain : List Nat) : List DNSRecord :=
  match env.fetch domain with
  | .ok records => records
  | .error _ => []

/-- The deduplicated list of root domains of the targets — the key set of the
`HashMap` built by `App::run` (one fetch task per unique domain). -/
def uniqueDomains (targets : List Target) : List (List Nat) :=
  (targets.map Target.domain).dedup

/-- Number of per-domain fetch tasks of `App::run` that failed (the first summand of
its `err_count`). -/
def fetchErrCount (env : Env) (targets : List Target) : Nat :=
  (uniqueDomains targets).countP (fun d => isErr (env.fetch d))

/-- The address list `[ipv4.map(V4), ipv6.map(V6)]` filtered down to the addresses
that are present (src/main.rs lines 254-255). -/
def presentAddrs (ipv4 : Option Ipv4Addr) (ipv6 : Option Ipv6Addr) : List IpAddr :=
  [ipv4.map IpAddr.v4, ipv6.map IpAddr.v6].filterMap id

/-- The reconciliation tasks dispatched by step 2 of `App::run` (src/main.rs lines
249-280), with their results: a target contributes one task per present address iff
the record store's list for its domain is non-empty (`records.len() > 0`), and is
skipped otherwise. -/
def taskResults (dryRun : Bool) (env : Env) (targets : List Target)
    (ipv4 : Option Ipv4Addr) (ipv6 : Option Ipv6Addr) :
    List (Except HandleErr Outcome × List ProviderCall) :=
  targets.flatMap fun t =>
    if 0 < (recordStore env t.domain).length then
      (presentAddrs ipv4 ipv6).map fun addr =>
        handle_target dryRun env t (recordStore env t.domain) addr
    else []

/-- Model of `App::run` (src/main.rs lines 199-283): the total error count (failed
fetches plus failed reconciliation tasks) together with every provider mutation call
issued over the run. -/
def run (dryRun : Bool) (env : Env) (targets : List Target) (ipv4 : Option Ipv4Addr)
    (ipv6 : Option Ipv6Addr) : Nat × List ProviderCall :=
  let results := taskResults dryRun env targets ipv4 ipv6
  (fetchErrCount env targets + results.countP (fun res => isErr res.1),
    results.flatMap (fun res => res.2))

/-- Model of `std::process::ExitCode` as used by `main`. -/
inductive ExitCode where
  | success
  | failure
deriving DecidableEq

/-- Model of `main` (src/main.rs lines 24-67), starting after `App::init`: resolve
addresses (exit with failure on error, with success when both families are disabled),
exit with success when there are zero targets, otherwise run and map a zero error
count to success.  Also returns the provider mutation calls for the whole process. -/
def main (ipv4mode ipv6mode : AddrMode) (dryRun : Bool) (env : Env)
    (targets : List Target) : ExitCode × List ProviderCall :=
  match get_addresses ipv4mode ipv6mode env.ping env.ping_v4 with
  | .ok (none, none) => (.success, [])
  | .error _ => (.failure, [])
  | .ok (ipv4, ipv6) =>
    if targets.length = 0 then (.success, [])
    else
      let res := run dryRun env targets ipv4 ipv6
      (if res.1 = 0 then .success else .failure, res.2)

/-- Model of `Display for Target` (src/config.rs lines 239-246): the subdomain (when
present, `@` included) followed by a dot, then the domain. -/
def Target.display (t : Target) : List Nat :=
  match t.subdomain with
  | some s => s ++ strDot ++ t.domain
  | none => t.domain

/-- The duplicate-target validation loop of `Config::from_args` (src/config.rs lines
109-127): targets are inserted into a map keyed by their `Display` string; hitting an
occupied entry aborts loading with a fatal error. -/
def validateTargets (seen : List (List Nat)) : List Target → Except Unit Unit
  | [] => .ok ()
  | t :: ts =>
    if t.display ∈ seen then .error ()
    else validateTargets (t.display :: seen) ts

/-- Modelled from the spec: the semantic identification of subdomain `"@"` with an
absent subdomain ("`subdomain == \"@\"` is semantically equivalent to no
subdomain"). -/
def normSub (s : Option (List Nat)) : Option (List Nat) :=
  if s = some strAt then none else s

/-- Records that match both the target and the desired DNS type (the spec's "records
matching both the target and the desired family's type"). -/
def matchingRecords (t : Target) (dnsType : List Nat) (records : List DNSRecord) :
    List DNSRecord :=
  records.filter fun r => t.matches_record r && r.typ == dnsType

/-- Whether some record matching the target has type CNAME or ALIAS. -/
def hasCnameCollision (t : Target) (records : List DNSRecord) : Bool :=
  records.any fun r => t.matches_record r && (r.typ == strCNAME || r.typ == strALIAS)

/-- Bytes of "example.com". -/
def bytesExampleCom : List Nat := [101, 120, 97, 109, 112, 108, 101, 46, 99, 111, 109]

/-- Bytes of "www". -/
def bytesWww : List Nat := [119, 119, 119]

/-- Bytes of "notwww.example.com". -/
def bytesNotwwwExampleCom : List Nat := [110, 111, 116] ++ bytesWww ++ strDot ++ bytesExampleCom

/-- Bytes of "www.other.com". -/
def bytesWwwOtherCom : List Nat := bytesWww ++ strDot ++ [111, 116, 104, 101, 114, 46, 99, 111, 109]

/-- The target `{domain: "example.com", subdomain: "www", ttl: 600}`. -/
def targetWww : Target := ⟨bytesExampleCom, some bytesWww, 600⟩

/-- The target `{domain: "example.com"}` with no subdomain. -/
def targetRoot : Target := ⟨bytesExampleCom, none, 600⟩

/-- The target `{domain: "example.com", subdomain: "@"}`. -/
def targetAtRoot : Target := ⟨bytesExampleCom, some strAt, 600⟩

/-- A DNS record with the given name, type and id, other fields defaulted. -/
def mkRecord (name typ id : List Nat) : DNSRecord :=
  ⟨id, name, typ, [], none, none, none⟩

/-- An A record named "example.com" with id "1" (bytes [49]). -/
def recordA1 : DNSRecord := mkRecord bytesExampleCom strA [49]

/-- An A record named "example.com" with id "2" (bytes [50]). -/
def recordA2 : DNSRecord := mkRecord bytesExampleCom strA [50]

/-- A CNAME record named "example.com" with id "3" (bytes [51]). -/
def recordCname : DNSRecord := mkRecord bytesExampleCom strCNAME [51]

/-- A fixed environment for concrete evaluations: every fetch returns zero records,
parsing always fails, edits succeed, creates return the id "2" (bytes [50]). -/
def envEmptyFetch : Env where
  ping := .ok (.v4 0)
  ping_v4 := .ok 0
  fetch := fun _ => .ok []
  parseIp := fun _ => .error ()
  editResult := fun _ _ _ => .ok ()
  createResult := fun _ _ => .ok [50]

/-- A fixed environment whose record fetches all fail. -/
def envFailFetch : Env where
  ping := .ok (.v4 0)
  ping_v4 := .ok 0
  fetch := fun _ => .error ()
  parseIp := fun _ => .error ()
  editResult := fun _ _ _ => .ok ()
  createResult := fun _ _ => .ok [50]

end DDNS

namespace DDNS

theorem startsWith_iff (l p : List Nat) : startsWith l p = true ↔ ∃ t, l = p ++ t := by
  induction p generalizing l with
  | nil => simp [startsWith]
  | cons b p ih =>
    cases l with
    | nil => simp [startsWith]
    | cons a l =>
      simp only [startsWith, Bool.and_eq_true, beq_iff_eq, ih]
      constructor
      · rintro ⟨rfl, t, rfl⟩; exact ⟨t, rfl⟩
      · rintro ⟨t, ht⟩
        rw [List.cons_append] at ht
        cases ht
        exact ⟨rfl, t, rfl⟩

theorem endsWith_iff (l p : List Nat) : endsWith l p = true ↔ ∃ t, l = t ++ p := by
  rw [endsWith, startsWith_iff]
  constructor
  · rintro ⟨t, ht⟩
    refine ⟨t.reverse, ?_⟩
    have := congrArg List.reverse ht
    simpa using this
  · rintro ⟨t, rfl⟩
    exact ⟨t.reverse, by simp⟩

theorem take_one_eq_dot {t : List Nat} (h : t.take 1 = strDot) : ∃ t', t = 46 :: t' := by
  cases t with
  | nil => simp [strDot] at h
  | cons a t' =>
    simp only [List.take_succ_cons, List.take_zero, strDot] at h
    cases h
    exact ⟨t', rfl⟩

theorem sub_match_eq (s d n : List Nat) :
    (startsWith n s && endsWith n d && (n.length == d.length + s.length + 1)
      && (slice n s.length (s.length + 1) == strDot))
    = (n == s ++ strDot ++ d) := by
  by_cases h : n = s ++ strDot ++ d
  · subst h
    have h1 : startsWith (s ++ strDot ++ d) s = true :=
      (startsWith_iff _ _).mpr ⟨strDot ++ d, by simp⟩
    have h2 : endsWith (s ++ strDot ++ d) d = true :=
      (endsWith_iff _ _).mpr ⟨s ++ strDot, rfl⟩
    have h3 : ((s ++ strDot ++ d).length == d.length + s.length + 1) = true := by
      simp only [List.length_append, strDot, List.length_cons, List.length_nil, beq_iff_eq]
      omega
    have h4 : (slice (s ++ strDot ++ d) s.length (s.length + 1) == strDot) = true := by
      have ht : (s ++ strDot ++ d).take (s.length + 1) = s ++ strDot := by
        have hlen : (s ++ strDot).length = s.length + 1 := by simp [strDot]
        rw [← hlen, List.take_left]
      have hd : List.drop s.length (s ++ strDot) = strDot := List.drop_left ..
      simp only [slice, ht, hd, beq_self_eq_true]
    rw [h1, h2, h3, h4]
    simp
  · have hr : (n == s ++ strDot ++ d) = false := by
      simpa [beq_eq_false_iff_ne] using h
    rw [hr]
    by_contra hl
    rw [← ne_eq, Bool.ne_false_iff, Bool.and_eq_true, Bool.and_eq_true, Bool.and_eq_true] at hl
    obtain ⟨⟨⟨hp, he⟩, hlen⟩, hdot⟩ := hl
    obtain ⟨t, rfl⟩ := (startsWith_iff _ _).mp hp
    obtain ⟨u, hu⟩ := (endsWith_iff _ _).mp he
    rw [beq_iff_eq] at hlen hdot
    have hslice : t.take 1 = strDot := by
      have ht : (s ++ t).take (s.length + 1) = s ++ t.take 1 := List.take_append ..
      simpa [slice, ht, List.drop_left] using hdot
    obtain ⟨t', rfl⟩ := take_one_eq_dot hslice
    have hlen' : t'.length = d.length := by
      simp only [List.length_append, List.length_cons] at hlen
      omega
    have hulen : (s ++ [46]).length = u.length := by
      have := congrArg List.length hu
      simp only [List.length_append, List.length_cons, List.length_nil] at this ⊢
      omega
    have hsplit : (s ++ [46]) ++ t' = u ++ d := by
      simpa using hu
    obtain ⟨rfl, rfl⟩ := List.append_inj hsplit hulen
    exact h (by simp [strDot])

/-- C4: the allocation-free matching check of `Target::matches_record` agrees with
the naive concatenation rule of the spec on every target and record (for an absent
or `@` subdomain, equality with the bare domain); in particular the target
`{domain: "example.com", subdomain: "www"}` accepts the record name
"www.example.com" and rejects "notwww.example.com" and "www.other.com". -/
theorem claim_C4 :
    (∀ (t : Target) (r : DNSRecord), t.matches_record r = matchesRecordSpec t r)
    ∧ targetWww.matches_record (mkRecord (bytesWww ++ strDot ++ bytesExampleCom) strA [49]) = true
    ∧ targetWww.matches_record (mkRecord bytesNotwwwExampleCom strA [49]) = false
    ∧ targetWww.matches_record (mkRecord bytesWwwOtherCom strA [49]) = false := by
  refine ⟨?_, by decide, by decide, by decide⟩
  intro t r
  unfold Target.matches_record matchesRecordSpec
  cases t.subdomain with
  | none => rfl
  | some s =>
    by_cases hs : s = strAt
    · simp [hs]
    · simp only [if_neg hs]
      exact sub_match_eq s t.domain r.name

/-- C2 (counterexample): with IPv4 disabled and IPv6 in `Try` mode, a primary probe
returning an IPv4 address is a fatal error, although the claim says `Try` mode
returns with IPv6 absent and no error "regardless of whether IPv4 is also enabled";
`Try` is a wanted mode and is not the required (`Enabled`) mode. -/
theorem claim_C2_counterexample :
    get_addresses .Disabled .Try (.ok (.v4 0)) (.ok 0) = .error .onlyGotV4
    ∧ AddrMode.is_enabled .Try = true
    ∧ AddrMode.Try ≠ AddrMode.Enabled := by
  refine ⟨rfl, rfl, by decide⟩

/-- C2 (amended): when the primary probe returns an IPv4 address and IPv6 is wanted,
address resolution fails if and only if IPv6 is in required (`Enabled`) mode or IPv4
is not enabled; in `Try` mode with IPv4 enabled it returns the IPv4 address with
IPv6 absent and no error. -/
theorem claim_C2 (v4m v6m : AddrMode) (a : Ipv4Addr) (p4 : Except Unit Ipv4Addr)
    (h6 : v6m.is_enabled = true) :
    (isErr (get_addresses v4m v6m (.ok (.v4 a)) p4) = true
      ↔ (v6m = .Enabled ∨ v4m.is_enabled = false))
    ∧ (v6m = .Try → v4m.is_enabled = true →
        get_addresses v4m v6m (.ok (.v4 a)) p4 = .ok (some a, none)) := by
  cases v4m <;> cases v6m <;>
    simp_all [get_addresses, AddrMode.is_enabled, AddrMode.is_required, isErr]

/-- C2 (witness): primary probe returning IPv4 with IPv4 enabled and IPv6 in `Try`
mode yields the IPv4 address, no IPv6 and no error. -/
theorem claim_C2_witness :
    get_addresses .Enabled .Try (.ok (.v4 7)) (.ok 0) = .ok (some 7, none) :=
  (claim_C2 .Enabled .Try 7 (.ok 0) (by decide)).2 rfl (by decide)

/-- C9: address resolution returns `(none, none)` iff both families are disabled by
configuration; in that case its result does not depend on either network probe and
the whole run short-circuits to success with no provider calls; when at least one
family is enabled, the result is an error or contains at least one address. -/
theorem claim_C9 (v4m v6m : AddrMode) (ping : Except Unit IpAddr)
    (p4 : Except Unit Ipv4Addr) :
    (get_addresses v4m v6m ping p4 = .ok (none, none)
      ↔ v4m.is_enabled = false ∧ v6m.is_enabled = false)
    ∧ (v4m.is_enabled = false → v6m.is_enabled = false →
        ∀ (ping' : Except Unit IpAddr) (p4' : Except Unit Ipv4Addr),
          get_addresses v4m v6m ping p4 = get_addresses v4m v6m ping' p4')
    ∧ (v4m.is_enabled = false → v6m.is_enabled = false →
        ∀ (dryRun : Bool) (env : Env) (targets : List Target),
          main v4m v6m dryRun env targets = (.success, []))
    ∧ ((v4m.is_enabled = true ∨ v6m.is_enabled = true) →
        isErr (get_addresses v4m v6m ping p4) = true
        ∨ ∃ p, get_addresses v4m v6m ping p4 = .ok p
            ∧ (p.1.isSome = true ∨ p.2.isSome = true)) := by
  cases v4m <;> cases v6m <;>
    first
    | exact ⟨⟨fun _ => ⟨rfl, rfl⟩, fun _ => rfl⟩, fun _ _ _ _ => rfl,
        fun _ _ _ _ _ => rfl, by simp [AddrMode.is_enabled]⟩
    | (rcases ping with e | av <;> try rcases av with a | a) <;>
        rcases p4 with e4 | a4 <;>
        simp [get_addresses, AddrMode.is_enabled, AddrMode.is_required, isErr]

/-- C9 (witness): with both families disabled, address resolution returns
`(none, none)` at a concrete probe result. -/
theorem claim_C9_witness :
    get_addresses .Disabled .Disabled (.ok (.v4 3)) (.ok 0) = .ok (none, none) :=
  (claim_C9 .Disabled .Disabled (.ok (.v4 3)) (.ok 0)).1.mpr ⟨rfl, rfl⟩

theorem isErr_iff {ε α : Type} (x : Except ε α) : isErr x = true ↔ ∃ e, x = .error e := by
  cases x <;> simp [isErr]

theorem matchingRecords_cons (t : Target) (dt : List Nat) (r : DNSRecord)
    (rs : List DNSRecord) :
    matchingRecords t dt (r :: rs) =
      if t.matches_record r && r.typ == dt then r :: matchingRecords t dt rs
      else matchingRecords t dt rs := by
  simp [matchingRecords, List.filter_cons]

theorem hasCnameCollision_cons (t : Target) (r : DNSRecord) (rs : List DNSRecord) :
    hasCnameCollision t (r :: rs) =
      ((t.matches_record r && (r.typ == strCNAME || r.typ == strALIAS))
        || hasCnameCollision t rs) := by
  simp [hasCnameCollision, List.any_cons]

theorem dns_type_not_cname {ty dt : List Nat} (hdt : dt = strA ∨ dt = strAAAA)
    (h : (ty == dt) = true) : (ty == strCNAME || ty == strALIAS) = false := by
  rw [beq_iff_eq] at h
  subst h
  rcases hdt with rfl | rfl <;> decide

theorem scan_no_matching (t : Target) (dt : List Nat) :
    ∀ (rs : List DNSRecord) (acc : Option DNSRecord),
      hasCnameCollision t rs = false → matchingRecords t dt rs = [] →
      scanRecords t dt rs acc = .ok acc := by
  intro rs
  induction rs with
  | nil => intro acc _ _; rfl
  | cons r rs ih =>
    intro acc hcol hM
    rw [hasCnameCollision_cons, Bool.or_eq_false_iff, Bool.and_eq_false_iff] at hcol
    rw [matchingRecords_cons] at hM
    by_cases hm : t.matches_record r = true
    · have hnc : (r.typ == strCNAME || r.typ == strALIAS) = false := by
        rcases hcol.1 with h | h
        · exact absurd hm (by simp [h])
        · exact h
      have htyp : (r.typ == dt) = false := by
        by_contra hq
        rw [← ne_eq, Bool.ne_false_iff] at hq
        rw [if_pos (by simp [hm, hq])] at hM
        exact List.cons_ne_nil _ _ hM
      rw [if_neg (by simp [htyp])] at hM
      simp only [scanRecords, hm, Bool.not_true, Bool.false_eq_true, if_false, htyp, hnc,
        if_false]
      exact ih acc hcol.2 hM
    · rw [Bool.not_eq_true] at hm
      rw [if_neg (by simp [hm])] at hM
      simp only [scanRecords, hm, Bool.not_false, if_true]
      exact ih acc hcol.2 hM

theorem scan_single (t : Target) (dt : List Nat) :
    ∀ (rs : List DNSRecord) (m : DNSRecord),
      hasCnameCollision t rs = false → matchingRecords t dt rs = [m] →
      scanRecords t dt rs none = .ok (some m) := by
  intro rs
  induction rs with
  | nil => intro m _ hM; exact absurd hM (by simp [matchingRecords])
  | cons r rs ih =>
    intro m hcol hM
    rw [hasCnameCollision_cons, Bool.or_eq_false_iff, Bool.and_eq_false_iff] at hcol
    rw [matchingRecords_cons] at hM
    by_cases hm : t.matches_record r = true
    · have hnc : (r.typ == strCNAME || r.typ == strALIAS) = false := by
        rcases hcol.1 with h | h
        · exact absurd hm (by simp [h])
        · exact h
      by_cases hq : (r.typ == dt) = true
      · rw [if_pos (by simp [hm, hq])] at hM
        injection hM with hr hrest
        subst hr
        simp only [scanRecords, hm, Bool.not_true, Bool.false_eq_true, if_false, hq, if_true]
        exact scan_no_matching t dt rs (some r) hcol.2 hrest
      · rw [Bool.not_eq_true] at hq
        rw [if_neg (by simp [hq])] at hM
        simp only [scanRecords, hm, Bool.not_true, Bool.false_eq_true, if_false, hq, hnc,
          if_false]
        exact ih m hcol.2 hM
    · rw [Bool.not_eq_true] at hm
      rw [if_neg (by simp [hm])] at hM
      simp only [scanRecords, hm, Bool.not_false, if_true]
      exact ih m hcol.2 hM

theorem scan_overfull (t : Target) (dt : List Nat) :
    ∀ (rs : List DNSRecord) (acc : Option DNSRecord),
      2 ≤ (matchingRecords t dt rs).length + accCount acc →
      isErr (scanRecords t dt rs acc) = true := by
  intro rs
  induction rs with
  | nil =>
    intro acc h
    cases acc <;> simp [matchingRecords, accCount] at h
  | cons r rs ih =>
    intro acc h
    rw [matchingRecords_cons] at h
    by_cases hm : t.matches_record r = true
    · by_cases hq : (r.typ == dt) = true
      · rw [if_pos (by simp [hm, hq])] at h
        cases acc with
        | some a =>
          simp only [scanRecords, hm, Bool.not_true, Bool.false_eq_true, if_false, hq,
            if_true]
          rfl
        | none =>
          simp only [scanRecords, hm, Bool.not_true, Bool.false_eq_true, if_false, hq,
            if_true]
          apply ih (some r)
          simp only [List.length_cons, accCount] at h ⊢
          omega
      · rw [Bool.not_eq_true] at hq
        rw [if_neg (by simp [hq])] at h
        by_cases hnc : (r.typ == strCNAME || r.typ == strALIAS) = true
        · simp only [scanRecords, hm, Bool.not_true, Bool.false_eq_true, if_false, hq,
            Bool.false_eq_true, if_false, hnc, if_true]
          rfl
        · rw [Bool.not_eq_true] at hnc
          simp only [scanRecords, hm, Bool.not_true, Bool.false_eq_true, if_false, hq,
            Bool.false_eq_true, if_false, hnc, if_false]
          exact ih acc h
    · rw [Bool.not_eq_true] at hm
      rw [if_neg (by simp [hm])] at h
      simp only [scanRecords, hm, Bool.not_false, if_true]
      exact ih acc h

theorem scan_collision_err (t : Target) (dt : List Nat) (hdt : dt = strA ∨ dt = strAAAA) :
    ∀ (rs : List DNSRecord) (acc : Option DNSRecord),
      hasCnameCollision t rs = true → isErr (scanRecords t dt rs acc) = true := by
  intro rs
  induction rs with
  | nil => intro acc h; exact absurd h (by simp [hasCnameCollision])
  | cons r rs ih =>
    intro acc h
    rw [hasCnameCollision_cons, Bool.or_eq_true, Bool.and_eq_true] at h
    by_cases hm : t.matches_record r = true
    · by_cases hq : (r.typ == dt) = true
      · have hrest : hasCnameCollision t rs = true := by
          rcases h with ⟨_, hcn⟩ | h
          · exact absurd hcn (by simp [dns_type_not_cname hdt hq])
          · exact h
        cases acc with
        | some a =>
          simp only [scanRecords, hm, Bool.not_true, Bool.false_eq_true, if_false, hq,
            if_true]
          rfl
        | none =>
          simp only [scanRecords, hm, Bool.not_true, Bool.false_eq_true, if_false, hq,
            if_true]
          exact ih (some r) hrest
      · rw [Bool.not_eq_true] at hq
        by_cases hnc : (r.typ == strCNAME || r.typ == strALIAS) = true
        · simp only [scanRecords, hm, Bool.not_true, Bool.false_eq_true, if_false, hq,
            Bool.false_eq_true, if_false, hnc, if_true]
          rfl
        · rw [Bool.not_eq_true] at hnc
          have hrest : hasCnameCollision t rs = true := by
            rcases h with ⟨_, hcn⟩ | h
            · exact absurd hcn (by simp [hnc])
            · exact h
          simp only [scanRecords, hm, Bool.not_true, Bool.false_eq_true, if_false, hq,
            Bool.false_eq_true, if_false, hnc, if_false]
          exact ih acc hrest
    · rw [Bool.not_eq_true] at hm
      have hrest : hasCnameCollision t rs = true := by
        rcases h with ⟨hmm, _⟩ | h
        · exact absurd hmm (by simp [hm])
        · exact h
      simp only [scanRecords, hm, Bool.not_false, if_true]
      exact ih acc hrest

theorem scan_collision_precise (t : Target) (dt : List Nat)
    (hdt : dt = strA ∨ dt = strAAAA) :
    ∀ (rs : List DNSRecord) (acc : Option DNSRecord),
      hasCnameCollision t rs = true →
      (matchingRecords t dt rs).length + accCount acc ≤ 1 →
      scanRecords t dt rs acc = .error .cnameCollision := by
  intro rs
  induction rs with
  | nil => intro acc h _; exact absurd h (by simp [hasCnameCollision])
  | cons r rs ih =>
    intro acc h hlen
    rw [hasCnameCollision_cons, Bool.or_eq_true, Bool.and_eq_true] at h
    rw [matchingRecords_cons] at hlen
    by_cases hm : t.matches_record r = true
    · by_cases hq : (r.typ == dt) = true
      · have hrest : hasCnameCollision t rs = true := by
          rcases h with ⟨_, hcn⟩ | h
          · exact absurd hcn (by simp [dns_type_not_cname hdt hq])
          · exact h
        rw [if_pos (by simp [hm, hq])] at hlen
        cases acc with
        | some a =>
          exfalso
          simp only [List.length_cons, accCount] at hlen
          omega
        | none =>
          simp only [scanRecords, hm, Bool.not_true, Bool.false_eq_true, if_false, hq,
            if_true]
          apply ih (some r) hrest
          simp only [List.length_cons, accCount] at hlen ⊢
          omega
      · rw [Bool.not_eq_true] at hq
        rw [if_neg (by simp [hq])] at hlen
        by_cases hnc : (r.typ == strCNAME || r.typ == strALIAS) = true
        · simp only [scanRecords, hm, Bool.not_true, Bool.false_eq_true, if_false, hq,
            Bool.false_eq_true, if_false, hnc, if_true]
        · rw [Bool.not_eq_true] at hnc
          have hrest : hasCnameCollision t rs = true := by
            rcases h with ⟨_, hcn⟩ | h
            · exact absurd hcn (by simp [hnc])
            · exact h
          simp only [scanRecords, hm, Bool.not_true, Bool.false_eq_true, if_false, hq,
            Bool.false_eq_true, if_false, hnc, if_false]
          exact ih acc hrest hlen
    · rw [Bool.not_eq_true] at hm
      have hrest : hasCnameCollision t rs = true := by
        rcases h with ⟨hmm, _⟩ | h
        · exact absurd hmm (by simp [hm])
        · exact h
      rw [if_neg (by simp [hm])] at hlen
      simp only [scanRecords, hm, Bool.not_false, if_true]
      exact ih acc hrest hlen


/-- C5: among the records matching both the target and the desired DNS type
(absent any CNAME/ALIAS collision, which C6 covers), zero matches make the scan
yield the create path (and, outside dry-run, a single create call), exactly one
match yields that record as the existing one, and two or more matches make the
task fail with no provider call issued — it never silently picks one. -/
theorem claim_C5 (dryRun : Bool) (env : Env) (t : Target) (records : List DNSRecord)
    (addr : IpAddr) :
    (hasCnameCollision t records = false →
      matchingRecords t addr.dns_type records = [] →
      scanRecords t addr.dns_type records none = .ok none
      ∧ (dryRun = false →
          (handle_target dryRun env t records addr).2 = [ProviderCall.create t addr]))
    ∧ (hasCnameCollision t records = false →
        ∀ m, matchingRecords t addr.dns_type records = [m] →
          scanRecords t addr.dns_type records none = .ok (some m))
    ∧ (2 ≤ (matchingRecords t addr.dns_type records).length →
        isErr (handle_target dryRun env t records addr).1 = true
        ∧ (handle_target dryRun env t records addr).2 = []) := by
  refine ⟨?_, ?_, ?_⟩
  · intro hcol hM
    have hscan : scanRecords t addr.dns_type records none = .ok none :=
      scan_no_matching t addr.dns_type records none hcol hM
    refine ⟨hscan, ?_⟩
    intro hdr
    subst hdr
    rcases hc : env.createResult t addr with e | id <;> simp [handle_target, hscan, hc]
  · intro hcol m hM
    exact scan_single t addr.dns_type records m hcol hM
  · intro hlen
    have herr : isErr (scanRecords t addr.dns_type records none) = true := by
      apply scan_overfull
      simpa [accCount] using hlen
    obtain ⟨e, hscan⟩ := (isErr_iff _).mp herr
    simp [handle_target, hscan, isErr]

/-- C5 (witness): for one A record named "example.com" and the root target, the scan
returns exactly that record. -/
theorem claim_C5_witness :
    scanRecords targetRoot (IpAddr.dns_type (.v4 0)) [recordA1] none = .ok (some recordA1) :=
  (claim_C5 false envEmptyFetch targetRoot [recordA1] (.v4 0)).2.1 rfl recordA1 rfl

/-- C6 (counterexample): with two matching A records listed before a matching CNAME
record, the task fails with the ambiguous-duplicates error, not the CNAME/ALIAS
collision error the claim promises whenever any matching CNAME record exists. -/
theorem claim_C6_counterexample :
    hasCnameCollision targetRoot [recordA1, recordA2, recordCname] = true
    ∧ handle_target false envEmptyFetch targetRoot [recordA1, recordA2, recordCname] (.v4 0)
        = (.error .multipleExisting, [])
    ∧ HandleErr.multipleExisting ≠ HandleErr.cnameCollision :=
  ⟨rfl, rfl, by decide⟩

/-- C6 (amended): if any record matching the target has type CNAME or ALIAS, the
reconciliation task fails before issuing any create or edit call; the error is the
descriptive collision error whenever at most one record of the desired A/AAAA type
matches (in particular when zero such records exist), while a second desired-type
record encountered first yields the ambiguous-duplicates error instead. -/
theorem claim_C6_amended (dryRun : Bool) (env : Env) (t : Target)
    (records : List DNSRecord) (addr : IpAddr)
    (hcol : hasCnameCollision t records = true) :
    isErr (handle_target dryRun env t records addr).1 = true
    ∧ (handle_target dryRun env t records addr).2 = []
    ∧ ((matchingRecords t addr.dns_type records).length ≤ 1 →
        (handle_target dryRun env t records addr).1 = .error .cnameCollision) := by
  have hdt : addr.dns_type = strA ∨ addr.dns_type = strAAAA := by
    cases addr <;> simp [IpAddr.dns_type]
  have herr : isErr (scanRecords t addr.dns_type records none) = true :=
    scan_collision_err t addr.dns_type hdt records none hcol
  obtain ⟨e, hscan⟩ := (isErr_iff _).mp herr
  refine ⟨by simp [handle_target, hscan, isErr], by simp [handle_target, hscan], ?_⟩
  intro hlen
  have hprec : scanRecords t addr.dns_type records none = .error .cnameCollision := by
    apply scan_collision_precise t addr.dns_type hdt records none hcol
    simpa [accCount] using hlen
  simp [handle_target, hprec]

/-- C6 (witness): a single matching CNAME record with zero A records makes the task
fail with the collision error. -/
theorem claim_C6_witness :
    (handle_target false envEmptyFetch targetRoot [recordCname] (.v4 0)).1
      = .error .cnameCollision :=
  (claim_C6_amended false envEmptyFetch targetRoot [recordCname] (.v4 0) rfl).2.2
    (by decide)

/-- C8: every reconciliation task issues at most one provider mutation call; it
issues none in dry-run mode; when the scan finds an existing record whose parsed
address equals the current one, the outcome is `NoChange` with no call; and in
dry-run mode the create path still runs to a reported outcome carrying the
synthetic placeholder ID `"<ID>"`. -/
theorem claim_C8 (dryRun : Bool) (env : Env) (t : Target) (records : List DNSRecord)
    (addr : IpAddr) :
    (handle_target dryRun env t records addr).2.length ≤ 1
    ∧ (dryRun = true → (handle_target dryRun env t records addr).2 = [])
    ∧ (∀ r, scanRecords t addr.dns_type records none = .ok (some r) →
        DNSRecord.try_parse_ip env.parseIp r = .ok addr →
        handle_target dryRun env t records addr = (.ok .noChange, []))
    ∧ (dryRun = true → scanRecords t addr.dns_type records none = .ok none →
        handle_target dryRun env t records addr = (.ok (.created strPlaceholder), [])) := by
  refine ⟨?_, ?_, ?_, ?_⟩
  · rcases h1 : scanRecords t addr.dns_type records none with e | o
    · simp [handle_target, h1]
    · rcases o with _ | r
      · cases dryRun
        · rcases hc : env.createResult t addr with e | id <;>
            simp [handle_target, h1, hc]
        · simp [handle_target, h1]
      · rcases hp : DNSRecord.try_parse_ip env.parseIp r with e | a
        · simp [handle_target, h1, hp]
        · by_cases ha : a = addr
          · simp [handle_target, h1, hp, ha]
          · cases dryRun
            · rcases he : env.editResult t r.id addr with e | u <;>
                simp [handle_target, h1, hp, ha, he]
            · simp [handle_target, h1, hp, ha]
  · intro hdr
    subst hdr
    rcases h1 : scanRecords t addr.dns_type records none with e | o
    · simp [handle_target, h1]
    · rcases o with _ | r
      · simp [handle_target, h1]
      · rcases hp : DNSRecord.try_parse_ip env.parseIp r with e | a
        · simp [handle_target, h1, hp]
        · by_cases ha : a = addr <;> simp [handle_target, h1, hp, ha]
  · intro r hscan hparse
    simp [handle_target, hscan, hparse]
  · intro hdr hscan
    subst hdr
    simp [handle_target, hscan]

/-- C8 (witness): in dry-run with no records, the create path reports the placeholder
ID and issues no call. -/
theorem claim_C8_witness :
    handle_target true envEmptyFetch targetRoot [] (.v4 0)
      = (.ok (.created strPlaceholder), []) :=
  (claim_C8 true envEmptyFetch targetRoot [] (.v4 0)).2.2.2 rfl rfl


theorem taskResults_length (dryRun : Bool) (env : Env) (targets : List Target)
    (ipv4 : Option Ipv4Addr) (ipv6 : Option Ipv6Addr) :
    (taskResults dryRun env targets ipv4 ipv6).length
      = (targets.countP fun t => decide (0 < (recordStore env t.domain).length))
          * (presentAddrs ipv4 ipv6).length := by
  induction targets with
  | nil => simp [taskResults]
  | cons t ts ih =>
    simp only [taskResults, List.flatMap_cons, List.length_append, List.countP_cons]
    by_cases h : 0 < (recordStore env t.domain).length
    · simp only [if_pos h, List.length_map, decide_eq_true h, if_true]
      rw [show (ts.flatMap fun t => if 0 < (recordStore env t.domain).length then
            (presentAddrs ipv4 ipv6).map fun addr =>
              handle_target dryRun env t (recordStore env t.domain) addr
          else []) = taskResults dryRun env ts ipv4 ipv6 from rfl, ih]
      ring
    · simp only [if_neg h, List.length_nil, decide_eq_false h, Bool.false_eq_true, if_false,
        Nat.add_zero, Nat.zero_add]
      rw [show (ts.flatMap fun t => if 0 < (recordStore env t.domain).length then
            (presentAddrs ipv4 ipv6).map fun addr =>
              handle_target dryRun env t (recordStore env t.domain) addr
          else []) = taskResults dryRun env ts ipv4 ipv6 from rfl, ih]

/-- C1 (counterexample): for a single root target whose domain fetch SUCCEEDS with
zero records, no reconciliation task is dispatched (the record-store entry is the
empty list, indistinguishable from a failed fetch), although the claim says one task
(a create) is dispatched whenever the fetch succeeded. -/
theorem claim_C1_counterexample :
    isErr (envEmptyFetch.fetch bytesExampleCom) = false
    ∧ taskResults false envEmptyFetch [targetRoot] (some 0) none = []
    ∧ (taskResults false envEmptyFetch [targetRoot] (some 0) none).length ≠ 1 :=
  ⟨rfl, rfl, by decide⟩

/-- C1 (amended): every target's domain has a record-store entry, which is the empty
list both when the fetch failed and when it returned zero records; one reconciliation
task per resolved address family is dispatched for exactly those targets whose
domain's record list is non-empty, and targets with an empty list — failed fetch or
zero fetched records alike — are skipped. -/
theorem claim_C1_amended (dryRun : Bool) (env : Env) (targets : List Target)
    (ipv4 : Option Ipv4Addr) (ipv6 : Option Ipv6Addr) :
    (∀ d, isErr (env.fetch d) = true → recordStore env d = [])
    ∧ (taskResults dryRun env targets ipv4 ipv6).length
        = (targets.countP fun t => decide (0 < (recordStore env t.domain).length))
            * (presentAddrs ipv4 ipv6).length := by
  refine ⟨?_, taskResults_length dryRun env targets ipv4 ipv6⟩
  intro d h
  cases henv : env.fetch d with
  | ok records => rw [henv] at h; exact absurd h (by simp [isErr])
  | error e => simp [recordStore, henv]

/-- C1 (witness): a failed fetch leaves the domain's record-store entry empty. -/
theorem claim_C1_witness :
    recordStore envFailFetch bytesExampleCom = [] :=
  (claim_C1_amended false envFailFetch [targetRoot] (some 0) none).1 bytesExampleCom rfl

theorem validate_ok_iff (ts : List Target) : ∀ seen : List (List Nat),
    validateTargets seen ts = .ok ()
      ↔ ((ts.map Target.display).Nodup ∧ ∀ t ∈ ts, t.display ∉ seen) := by
  induction ts with
  | nil => intro seen; simp [validateTargets]
  | cons t ts ih =>
    intro seen
    simp only [validateTargets]
    by_cases h : t.display ∈ seen
    · rw [if_pos h]
      constructor
      · intro hx; exact absurd hx (by simp)
      · rintro ⟨_, hall⟩
        exact absurd h (hall t (List.mem_cons_self t ts))
    · rw [if_neg h, ih (t.display :: seen)]
      simp only [List.map_cons, List.nodup_cons, List.mem_cons, List.mem_map]
      constructor
      · rintro ⟨hnd, hall⟩
        refine ⟨⟨?_, hnd⟩, ?_⟩
        · rintro ⟨x, hx, heq⟩
          exact (hall x hx) (by simp [heq])
        · rintro x (rfl | hx) hmem
          · exact h hmem
          · exact (hall x hx) (by simp [hmem])
      · rintro ⟨⟨hnm, hnd⟩, hall⟩
        refine ⟨hnd, ?_⟩
        intro x hx
        rintro (heq | hmem)
        · exact hnm ⟨x, hx, heq⟩
        · exact hall x (Or.inr hx) hmem

/-- C3 (counterexample): the targets `{domain: "example.com", subdomain: "@"}` and
`{domain: "example.com"}` denote the same (domain, subdomain) pair under the spec's
"@ is equivalent to no subdomain" rule, yet configuration validation succeeds,
because the duplicate check compares `Display` strings and `"@.example.com"` differs
from `"example.com"`. -/
theorem claim_C3_counterexample :
    validateTargets [] [targetAtRoot, targetRoot] = .ok ()
    ∧ targetAtRoot.domain = targetRoot.domain
    ∧ normSub targetAtRoot.subdomain = normSub targetRoot.subdomain
    ∧ targetAtRoot ≠ targetRoot :=
  ⟨rfl, rfl, rfl, by decide⟩

/-- C3 (amended): the duplicate-target validation of configuration loading succeeds
if and only if the targets' `Display` strings (`subdomain "." domain` with `@` kept
literally, bare domain when the subdomain is absent) are pairwise distinct; it does
not identify subdomain `"@"` with an absent subdomain. -/
theorem claim_C3_amended (ts : List Target) :
    validateTargets [] ts = .ok () ↔ (ts.map Target.display).Nodup := by
  rw [validate_ok_iff]
  simp

/-- C3 (witness): two targets with distinct display strings pass validation. -/
theorem claim_C3_witness :
    validateTargets [] [targetRoot, targetWww] = .ok () :=
  (claim_C3_amended [targetRoot, targetWww]).mpr (by decide)

/-- C7: a failed address resolution exits with failure before any record work; when
resolution succeeds (with at least one address, and at least one target so that the
run happens), the process exits with success iff the run's aggregate failure count is
zero; that count is the number of failed per-domain fetches plus the number of failed
per-(target, family) reconciliation tasks; and one failed fetch shared by two targets
of the same domain counts as 1, not 2. -/
theorem claim_C7 (v4m v6m : AddrMode) (dryRun : Bool) (env : Env)
    (targets : List Target) :
    (∀ e, get_addresses v4m v6m env.ping env.ping_v4 = .error e →
        main v4m v6m dryRun env targets = (.failure, []))
    ∧ (∀ p, get_addresses v4m v6m env.ping env.ping_v4 = .ok p →
        ¬(p.1 = none ∧ p.2 = none) → targets ≠ [] →
        ((main v4m v6m dryRun env targets).1 = .success
          ↔ (run dryRun env targets p.1 p.2).1 = 0))
    ∧ (∀ (ipv4 : Option Ipv4Addr) (ipv6 : Option Ipv6Addr),
        (run dryRun env targets ipv4 ipv6).1
          = fetchErrCount env targets
            + ((taskResults dryRun env targets ipv4 ipv6).countP fun res => isErr res.1))
    ∧ (run false envFailFetch
        [⟨bytesExampleCom, some [97], 300⟩, ⟨bytesExampleCom, none, 600⟩]
        (some 0) none).1 = 1 := by
  refine ⟨?_, ?_, fun ipv4 ipv6 => rfl, by decide⟩
  · intro e h
    simp [main, h]
  · intro p hp hnn hne
    have hred : main v4m v6m dryRun env targets
        = (if (run dryRun env targets p.1 p.2).1 = 0 then ExitCode.success
            else ExitCode.failure,
          (run dryRun env targets p.1 p.2).2) := by
      obtain ⟨p1, p2⟩ := p
      cases p1 <;> cases p2
      · exact absurd ⟨rfl, rfl⟩ hnn
      all_goals
        simp only [main, hp]
        rw [if_neg (by simpa [List.length_eq_zero] using hne)]
    rw [hred]
    by_cases hz : (run dryRun env targets p.1 p.2).1 = 0 <;> simp [hz]

/-- C7 (witness): with IPv4 enabled, a successful probe, one target and a successful
(zero-record) fetch, the run has zero failures and the process exits with success. -/
theorem claim_C7_witness :
    (main .Enabled .Disabled false envEmptyFetch [targetRoot]).1 = ExitCode.success :=
  ((claim_C7 .Enabled .Disabled false envEmptyFetch [targetRoot]).2.1 (some 0, none) rfl
    (by simp) (by simp)).mpr rfl


theorem utf8Valid_cons_eq (b1 : Nat) (rest : List Nat) :
    utf8Valid (b1 :: rest) =
      (if b1 < 128 then utf8Valid rest
       else if b1 < 192 then false
       else if b1 < 224 then
         match rest with
         | b2 :: rest2 => isCont b2 && utf8Valid rest2
         | [] => false
       else if b1 < 240 then
         match rest with
         | b2 :: b3 :: rest3 => isCont b2 && isCont b3 && utf8Valid rest3
         | _ => false
       else if b1 < 248 then
         match rest with
         | b2 :: b3 :: b4 :: rest4 => isCont b2 && isCont b3 && isCont b4 && utf8Valid rest4
         | _ => false
       else false) := by
  match rest with
  | [] => rfl
  | [b2] => rfl
  | [b2, b3] => rfl
  | b2 :: b3 :: b4 :: rest4 => rfl

theorem utf8_head_not_cont {b : Nat} {l : List Nat} (h : utf8Valid (b :: l) = true) :
    isCont b = false := by
  by_cases h1 : b < 128
  · simp only [isCont, Bool.and_eq_false_iff, decide_eq_false_iff_not]
    omega
  · by_cases h2 : b < 192
    · exfalso
      rw [utf8Valid_cons_eq, if_neg h1, if_pos h2] at h
      exact Bool.false_ne_true h
    · simp only [isCont, Bool.and_eq_false_iff, decide_eq_false_iff_not]
      omega

theorem utf8_append_right (b : List Nat) :
    ∀ (n : Nat) (a : List Nat), a.length ≤ n →
      utf8Valid (a ++ b) = true → utf8Valid a = true → utf8Valid b = true := by
  intro n
  induction n with
  | zero =>
    intro a ha hab _
    have : a = [] := List.eq_nil_of_length_eq_zero (Nat.le_zero.mp ha)
    subst this
    simpa using hab
  | succ n ih =>
    intro a ha hab hva
    cases a with
    | nil => simpa using hab
    | cons b1 rest =>
      rw [List.cons_append, utf8Valid_cons_eq] at hab
      rw [utf8Valid_cons_eq] at hva
      by_cases h1 : b1 < 128
      · rw [if_pos h1] at hva hab
        refine ih rest ?_ hab hva
        simp only [List.length_cons] at ha
        omega
      · by_cases h2 : b1 < 192
        · exfalso
          rw [if_neg h1, if_pos h2] at hva
          exact Bool.false_ne_true hva
        · by_cases h3 : b1 < 224
          · rw [if_neg h1, if_neg h2, if_pos h3] at hva hab
            cases rest with
            | nil => exact absurd hva (by exact fun hx => Bool.false_ne_true hx)
            | cons b2 rest2 =>
              have hva2 : (isCont b2 && utf8Valid rest2) = true := hva
              have hab2 : (isCont b2 && utf8Valid (rest2 ++ b)) = true := hab
              rw [Bool.and_eq_true] at hva2 hab2
              refine ih rest2 ?_ hab2.2 hva2.2
              simp only [List.length_cons] at ha
              omega
          · by_cases h4 : b1 < 240
            · rw [if_neg h1, if_neg h2, if_neg h3, if_pos h4] at hva hab
              match rest, hva, hab with
              | [], hva, _ => exact absurd hva (fun hx => Bool.false_ne_true hx)
              | [b2], hva, _ => exact absurd hva (fun hx => Bool.false_ne_true hx)
              | b2 :: b3 :: rest3, hva, hab =>
                have hva2 : (isCont b2 && (isCont b3 && utf8Valid rest3)) = true := by
                  simpa [Bool.and_assoc] using hva
                have hab2 : (isCont b2 && (isCont b3 && utf8Valid (rest3 ++ b))) = true := by
                  simpa [Bool.and_assoc] using hab
                rw [Bool.and_eq_true, Bool.and_eq_true] at hva2 hab2
                refine ih rest3 ?_ hab2.2.2 hva2.2.2
                simp only [List.length_cons] at ha
                omega
            · by_cases h5 : b1 < 248
              · rw [if_neg h1, if_neg h2, if_neg h3, if_neg h4, if_pos h5] at hva hab
                match rest, hva, hab with
                | [], hva, _ => exact absurd hva (fun hx => Bool.false_ne_true hx)
                | [b2], hva, _ => exact absurd hva (fun hx => Bool.false_ne_true hx)
                | [b2, b3], hva, _ => exact absurd hva (fun hx => Bool.false_ne_true hx)
                | b2 :: b3 :: b4 :: rest4, hva, hab =>
                  have hva2 : (isCont b2 && (isCont b3 && (isCont b4 && utf8Valid rest4)))
                      = true := by
                    simpa [Bool.and_assoc] using hva
                  have hab2 : (isCont b2 && (isCont b3 && (isCont b4
                      && utf8Valid (rest4 ++ b)))) = true := by
                    simpa [Bool.and_assoc] using hab
                  rw [Bool.and_eq_true, Bool.and_eq_true, Bool.and_eq_true] at hva2 hab2
                  refine ih rest4 ?_ hab2.2.2.2 hva2.2.2.2
                  simp only [List.length_cons] at ha
                  omega
              · exfalso
                rw [if_neg h1, if_neg h2, if_neg h3, if_neg h4, if_neg h5] at hva
                exact Bool.false_ne_true hva

theorem isCharBoundary_of_byte {name : List Nat} {i : Nat} {b : Nat}
    (hget : name[i]? = some b) (hb : isCont b = false) :
    isCharBoundary name i = true := by
  simp only [isCharBoundary, hget, hb, Bool.not_false, Bool.or_true]

theorem isCharBoundary_of_len {name : List Nat} {i : Nat} (h : i = name.length) :
    isCharBoundary name i = true := by
  subst h
  have hget : name[name.length]? = none := by
    rw [List.getElem?_eq_none_iff]
  simp only [isCharBoundary, hget, beq_self_eq_true, Bool.or_true]

theorem boundary_of_guards (sub d name : List Nat)
    (hvs : utf8Valid sub = true) (hvd : utf8Valid d = true) (hvn : utf8Valid name = true)
    (hp : startsWith name sub = true) (he : endsWith name d = true)
    (hlen : name.length = d.length + sub.length + 1) :
    sub.length + 1 ≤ name.length
    ∧ isCharBoundary name sub.length = true
    ∧ isCharBoundary name (sub.length + 1) = true := by
  refine ⟨by omega, ?_, ?_⟩
  · obtain ⟨rest, hname⟩ := (startsWith_iff _ _).mp hp
    have hrlen : rest.length = d.length + 1 := by
      have := congrArg List.length hname
      simp only [List.length_append] at this
      omega
    cases rest with
    | nil => simp at hrlen
    | cons r0 rest2 =>
      have hvr : utf8Valid (r0 :: rest2) = true := by
        refine utf8_append_right (r0 :: rest2) sub.length sub (Nat.le_refl _) ?_ hvs
        rw [← hname]
        exact hvn
      have hget : name[sub.length]? = some r0 := by
        rw [hname, List.getElem?_append_right (Nat.le_refl _)]
        simp
      exact isCharBoundary_of_byte hget (utf8_head_not_cont hvr)
  · cases d with
    | nil =>
      refine isCharBoundary_of_len ?_
      simp only [List.length_nil] at hlen
      omega
    | cons d0 d2 =>
      obtain ⟨pre, hname⟩ := (endsWith_iff _ _).mp he
      have hplen : pre.length = sub.length + 1 := by
        have := congrArg List.length hname
        simp only [List.length_append, List.length_cons] at this hlen
        omega
      have hget : name[sub.length + 1]? = some d0 := by
        rw [hname, ← hplen, List.getElem?_append_right (Nat.le_refl _)]
        simp
      exact isCharBoundary_of_byte hget (utf8_head_not_cont hvd)

/-- C10: for every target whose domain and subdomain are (as every Rust `String` is)
valid UTF-8 and every DNS record, the matching check is total: the instrumented
version that returns `none` exactly where the byte-range index
`&record.name[sub.len()..sub.len() + 1]` would panic never does so, and agrees with
`Target::matches_record` — once the prefix, suffix and total-length guards pass, the
range is in bounds of the record name and both ends lie on character boundaries. -/
theorem claim_C10 (t : Target) (r : DNSRecord)
    (hvd : utf8Valid t.domain = true) (hvn : utf8Valid r.name = true)
    (hvs : ∀ s, t.subdomain = some s → utf8Valid s = true) :
    matches_record_checked t r = some (t.matches_record r) := by
  rcases hsub : t.subdomain with _ | s
  · simp [matches_record_checked, Target.matches_record, hsub]
  · have hvsub := hvs s hsub
    by_cases hat : s = strAt
    · simp [matches_record_checked, Target.matches_record, hsub, hat]
    · simp only [matches_record_checked, Target.matches_record, hsub, if_neg hat]
      by_cases hg : (startsWith r.name s && endsWith r.name t.domain
          && (r.name.length == t.domain.length + s.length + 1)) = true
      · rw [if_pos hg]
        have hg2 := hg
        rw [Bool.and_eq_true, Bool.and_eq_true] at hg2
        obtain ⟨⟨hp, he⟩, hlen⟩ := hg2
        rw [beq_iff_eq] at hlen
        obtain ⟨hb, h1, h2⟩ := boundary_of_guards s t.domain r.name hvsub hvd hvn hp he hlen
        rw [if_pos (by simp [h1, h2, hb])]
        rw [hg, Bool.true_and]
      · rw [if_neg hg]
        rw [Bool.not_eq_true] at hg
        rw [hg, Bool.false_and]

/-- C10 (witness): a concrete target and record (subdomain "www", domain and name
around "example.com") for which the checked matching evaluates without panic to the
same result as the plain check. -/
theorem claim_C10_witness :
    matches_record_checked targetWww (mkRecord (bytesWww ++ strDot ++ bytesExampleCom) strA [49])
      = some true :=
  Eq.trans
    (claim_C10 targetWww (mkRecord (bytesWww ++ strDot ++ bytesExampleCom) strA [49])
      (by decide) (by decide)
      (fun s hs => by
        rw [show s = bytesWww from (Option.some.inj hs).symm]
        decide))
    (by decide)

end DDNS
